import Mathlib

/-!
Verification of `release-sanity-checker` (`src/main.py`) against its
specification.  The script compares live JSON responses of configured
microservice endpoints against recorded fixture responses by serializing
both to two reused temporary files and diffing them line by line.

The embedding below models, faithfully to the source:
* JSON values and Python's `json.dumps(v, indent=4)` (`ensure_ascii=True`,
  default separators; numbers restricted to integers),
* the two temporary scratch files including their read/write position
  (`tempfile.TemporaryFile(mode='r+')`), `truncate()` at the current
  position, `write` at the current position, and line iteration from the
  current position,
* the line-diff loop (`for line1, line2 in zip(...)`, printing
  `Found difference: {line1}` for unequal pairs),
* `call_microservice` over an abstract transport oracle,
* the orchestrating `main` from the point after the environment prompt,
  over abstract configuration / filesystem / network oracles.
-/

namespace ReleaseSanityChecker

/-- JSON values, as loaded by `json.load` and passed to `json.dumps`.
Numbers are modelled as integers (the fixtures in the claims use only
integers; floating-point formatting is outside the model). Object fields
keep insertion order, as Python `dict` and `json.dumps` do. -/
inductive Json where
  | null : Json
  | bool (b : Bool) : Json
  | num (n : Int) : Json
  | str (s : String) : Json
  | arr (items : List Json) : Json
  | obj (fields : List (String × Json)) : Json

/-- Lowercase hex digit, as used by Python's `\uXXXX` escapes. -/
def hexDigit (n : Nat) : Char :=
  if n < 10 then Char.ofNat (48 + n) else Char.ofNat (87 + n)

/-- Four-digit `\uXXXX` escape. -/
def uEscape (n : Nat) : String :=
  "\\u" ++ String.mk [hexDigit (n / 4096 % 16), hexDigit (n / 256 % 16),
                      hexDigit (n / 16 % 16), hexDigit (n % 16)]

/-- Encoding of one character inside a JSON string literal, following
Python's `json.encoder` with `ensure_ascii=True`: printable ASCII other
than `"` and `\` is kept, the short escapes are used for the usual control
characters, every other character becomes `\uXXXX` (with surrogate pairs
above the BMP). -/
def encodeChar (c : Char) : String :=
  if c = '"' then "\\\""
  else if c = '\\' then "\\\\"
  else if c = '\n' then "\\n"
  else if c = '\r' then "\\r"
  else if c = '\t' then "\\t"
  else if c.toNat = 8 then "\\b"
  else if c.toNat = 12 then "\\f"
  else if 32 ≤ c.toNat ∧ c.toNat ≤ 126 then String.mk [c]
  else if c.toNat < 65536 then uEscape c.toNat
  else
    uEscape (55296 + (c.toNat - 65536) / 1024) ++ uEscape (56320 + (c.toNat - 65536) % 1024)

/-- Python `json.dumps` rendering of a string. -/
def encodeString (s : String) : String :=
  "\"" ++ String.join (s.toList.map encodeChar) ++ "\""

/-- `indent=4` indentation for nesting level `lvl`. -/
def indentStr (lvl : Nat) : String :=
  String.mk (List.replicate (4 * lvl) ' ')

mutual

/-- `json.dumps(v, indent=4)` at nesting level `lvl`: containers open with
a newline, items are indented four further spaces, items are separated by
`,\n`, keys are rendered with `: ` after them, and the closing bracket sits
at the container's own indentation.  Empty containers render inline. -/
def dumpJson : Json → Nat → String
  | .null, _ => "null"
  | .bool true, _ => "true"
  | .bool false, _ => "false"
  | .num n, _ => toString n
  | .str s, _ => encodeString s
  | .arr [], _ => "[]"
  | .arr (x :: xs), lvl =>
      "[\n" ++ dumpArrayItems (x :: xs) (lvl + 1) ++ "\n" ++ indentStr lvl ++ "]"
  | .obj [], _ => "\x7b\x7d"
  | .obj (f :: fs), lvl =>
      "\x7b\n" ++ dumpObjectItems (f :: fs) (lvl + 1) ++ "\n" ++ indentStr lvl ++ "\x7d"

/-- Array items of `json.dumps(·, indent=4)`, separated by `,\n`. -/
def dumpArrayItems : List Json → Nat → String
  | [], _ => ""
  | [x], lvl => indentStr lvl ++ dumpJson x lvl
  | x :: y :: xs, lvl =>
      indentStr lvl ++ dumpJson x lvl ++ ",\n" ++ dumpArrayItems (y :: xs) lvl

/-- Object items of `json.dumps(·, indent=4)`, separated by `,\n`. -/
def dumpObjectItems : List (String × Json) → Nat → String
  | [], _ => ""
  | [(k, v)], lvl => indentStr lvl ++ encodeString k ++ ": " ++ dumpJson v lvl
  | (k, v) :: g :: fs, lvl =>
      indentStr lvl ++ encodeString k ++ ": " ++ dumpJson v lvl ++ ",\n" ++
        dumpObjectItems (g :: fs) lvl

end

/-- Top-level `json.dumps(v, indent=4)` (no trailing newline). -/
def dumps (v : Json) : String :=
  dumpJson v 0

/-! ## Temporary files

`tempfile.TemporaryFile(mode='r+', encoding='utf-8')` is a seekable text
stream.  We model it as its character content together with the current
stream position; the script never calls `seek`, so every operation acts at
the current position. -/

/-- A temporary file: character content plus current read/write position. -/
structure TmpFile where
  content : List Char
  pos : Nat

/-- A freshly created temporary file: empty, position `0`. -/
def TmpFile.init : TmpFile :=
  ⟨[], 0⟩

/-- The stream position sits at end-of-file.  This holds for a fresh file
and, as proved below, is preserved by every operation the script performs,
since the script never seeks. -/
def TmpFile.atEnd (f : TmpFile) : Prop :=
  f.pos = f.content.length

/-- Python `f.truncate()` with no argument: resize the file to the current
position, leaving the position unchanged. -/
def TmpFile.trunc (f : TmpFile) : TmpFile :=
  ⟨f.content.take f.pos, f.pos⟩

/-- Python `f.write(s)`: overwrite at the current position, extending the
file as needed, advancing the position past the written text.  (`flush` has
no effect on this model.) -/
def TmpFile.write (f : TmpFile) (s : String) : TmpFile :=
  ⟨f.content.take f.pos ++ s.toList ++ f.content.drop (f.pos + s.toList.length),
   f.pos + s.toList.length⟩

/-- Splitting a character stream into lines as Python file iteration does:
each yielded line keeps its trailing `'\n'`; a final segment without a
newline is yielded as-is; an empty remainder yields no lines. -/
def splitLinesAux : List Char → List Char → List String
  | [], [] => []
  | [], acc => [String.mk acc.reverse]
  | '\n' :: rest, acc => String.mk (acc.reverse ++ ['\n']) :: splitLinesAux rest []
  | c :: rest, acc => splitLinesAux (rest) (c :: acc)

/-- Lines of a string, Python file-iteration style. -/
def splitLines (s : String) : List String :=
  splitLinesAux s.toList []

/-- The lines a `for` loop over the file would yield from the current
position onwards. -/
def TmpFile.pendingLines (f : TmpFile) : List String :=
  splitLines (String.mk (f.content.drop f.pos))

/-- Characters consumed from a file when the first `k` of its pending
lines are read. -/
def consumedChars (ls : List String) (k : Nat) : Nat :=
  ((ls.take k).map (fun l => l.toList.length)).sum

/-- Position of a file after `zip` iteration has read `k` of its pending
lines. -/
def TmpFile.afterRead (f : TmpFile) (k : Nat) : TmpFile :=
  ⟨f.content, f.pos + consumedChars f.pendingLines k⟩

/-! ## The line-diff loop (src/main.py lines 66-68)

    for line1, line2 in zip(request_compare_tmp, response_compare_tmp):
        if line1 != line2:
            print(f"Found difference: \x7bline1\x7d")
-/

/-- The difference lines printed by the loop, given the line sequences the
two zipped iterators yield: pairs stop at the shorter sequence, and an
unequal pair prints the actual-side line after the fixed marker. -/
def diffLines : List String → List String → List String
  | l1 :: t1, l2 :: t2 =>
      (if l1 ≠ l2 then ["Found difference: " ++ l1] else []) ++ diffLines t1 t2
  | _, _ => []

/-- One comparison round of `main` (src/main.py lines 58-68): truncate both
scratch files at their current positions, write the serialized actual and
expected texts, flush, then run the `zip` diff loop, which iterates from the
files' current positions.  Returns the two files as the loop leaves them
(`zip` advances the first iterator one element further when it is the longer
one) together with the printed difference lines. -/
def compareStep (b1 b2 : TmpFile) (actualText expectedText : String) :
    TmpFile × TmpFile × List String :=
  let b1 := (b1.trunc).write actualText
  let b2 := (b2.trunc).write expectedText
  let l1 := b1.pendingLines
  let l2 := b2.pendingLines
  (b1.afterRead (min l1.length (l2.length + 1)),
   b2.afterRead (min l1.length l2.length),
   diffLines l1 l2)

/-! ## Transport, configuration and filesystem oracles -/

/-- Outcome of `requests.post(url, json=body)` followed by `.json()`:
either the POST itself raises (network failure), or a response arrives with
some HTTP status code and a body that may or may not parse as JSON.
`requests` does not raise on a non-2xx status and `main.py` never checks
`status_code`. -/
inductive TransportOutcome where
  | netFail : TransportOutcome
  | response (status : Nat) (body : Option Json) : TransportOutcome

/-- A network oracle: what the live service answers for a given URL and
request body. -/
def Network : Type :=
  String → Json → TransportOutcome

/-- Observable events of a run: a `logging.info` line, an HTTP POST being
issued, or a printed `Found difference` line. -/
inductive Event where
  | log (msg : String) : Event
  | netCall (url : String) (body : Json) : Event
  | diff (line : String) : Event

/-- The uncaught exceptions that abort the whole run. -/
inductive RunError where
  | missingFixtureFile : RunError
  | invalidFixtureJson : RunError
  | networkFailure : RunError
  | nonJsonResponse : RunError
  | missingUrlsSection : RunError

/-- `call_microservice` (src/main.py lines 17-26): log the target URL, POST
the payload, return the parsed JSON body.  A raising POST or a body that is
not JSON propagates as an error; the HTTP status is ignored. -/
def call_microservice (net : Network) (url : String) (body : Json) :
    List Event × Except RunError Json :=
  let evs := [Event.log ("Sending request to " ++ url), Event.netCall url body]
  match net url body with
  | .netFail => (evs, .error .networkFailure)
  | .response _ none => (evs, .error .nonJsonResponse)
  | .response _ (some j) => (evs, .ok j)

/-- The `config.ini` contents relevant to the script, abstracted from
`ConfigParser`: `items sect` is `config.items(sect)` (`none` when the
section is missing, which raises), `get sect key` is
`config.get(sect, key)` (`none` when the section or key is missing, which
raises). -/
structure Config where
  items : String → Option (List (String × String))
  get : String → String → Option String

/-- The fixture filesystem: maps a path to `none` when the file is missing
(so `open` raises), `some (.error ())` when it exists but `json.load`
raises, and `some (.ok v)` when it parses as the JSON value `v`. -/
def Files : Type :=
  String → Option (Except Unit Json)

/-- Processing of one endpoint (src/main.py lines 49-68): derive the two
fixture paths, open both files, parse the request fixture, call the
microservice at `url ++ endpoint`, then (only now) parse the expected
response fixture, write both serialized texts into the scratch files and
run the diff loop.  Any raise aborts with the events emitted so far. -/
def processEndpoint (files : Files) (net : Network) (st : TmpFile × TmpFile)
    (url endpoint : String) : List Event × Except RunError (TmpFile × TmpFile) :=
  match files ("requests" ++ endpoint ++ ".json"),
        files ("responses" ++ endpoint ++ ".json") with
  | none, _ => ([], .error .missingFixtureFile)
  | some _, none => ([], .error .missingFixtureFile)
  | some reqParse, some respParse =>
    match reqParse with
    | .error _ => ([], .error .invalidFixtureJson)
    | .ok reqJson =>
      let (callEvs, callRes) := call_microservice net (url ++ endpoint) reqJson
      match callRes with
      | .error e => (callEvs, .error e)
      | .ok respJson =>
        match respParse with
        | .error _ => (callEvs, .error .invalidFixtureJson)
        | .ok expectedJson =>
          let (b1, b2, report) := compareStep st.1 st.2 (dumps respJson) (dumps expectedJson)
          (callEvs ++ report.map Event.diff, .ok (b1, b2))

/-- Sequential processing of a microservice's endpoint list, threading the
scratch files; an error from one endpoint aborts the rest. -/
def processEndpoints (files : Files) (net : Network) (url : String) :
    TmpFile × TmpFile → List String → List Event × Except RunError (TmpFile × TmpFile)
  | st, [] => ([], .ok st)
  | st, e :: rest =>
    let (evs, r) := processEndpoint files net st url e
    match r with
    | .error err => (evs, .error err)
    | .ok st' =>
      let (evs', r') := processEndpoints files net url st' rest
      (evs ++ evs', r')

/-- Python `str.split(',')`: split at every comma; no merging of adjacent
separators, an empty string yields one empty piece. -/
def pySplitCommaAux : List Char → List Char → List String
  | [], acc => [String.mk acc.reverse]
  | ',' :: rest, acc => String.mk acc.reverse :: pySplitCommaAux rest []
  | c :: rest, acc => pySplitCommaAux rest (c :: acc)

/-- Python `str.split(',')` on a string. -/
def pySplitComma (s : String) : List String :=
  pySplitCommaAux s.toList []

/-- Python `str.strip()` with no argument: remove leading and trailing
whitespace. -/
def pyStrip (s : String) : String :=
  String.mk (((s.toList.dropWhile Char.isWhitespace).reverse.dropWhile
    Char.isWhitespace).reverse)

/-- Processing of one microservice entry (src/main.py lines 43-47): resolve
`config.get(name, 'endpoints')`, split on `','` and strip each piece; if the
lookup raises, the `except` clause skips the microservice (`continue`). -/
def processMicroservice (cfg : Config) (files : Files) (net : Network)
    (st : TmpFile × TmpFile) (entry : String × String) :
    List Event × Except RunError (TmpFile × TmpFile) :=
  match cfg.get entry.1 "endpoints" with
  | none => ([], .ok st)
  | some s =>
    let endpoints := (pySplitComma s).map (fun v => pyStrip v)
    processEndpoints files net entry.2 st endpoints

/-- Sequential processing of the `urls-<env>` entries, threading the
scratch files; an uncaught error aborts the rest. -/
def processMicroservices (cfg : Config) (files : Files) (net : Network) :
    TmpFile × TmpFile → List (String × String) →
    List Event × Except RunError (TmpFile × TmpFile)
  | st, [] => ([], .ok st)
  | st, m :: rest =>
    let (evs, r) := processMicroservice cfg files net st m
    match r with
    | .error err => (evs, .error err)
    | .ok st' =>
      let (evs', r') := processMicroservices cfg files net st' rest
      (evs ++ evs', r')

/-- Python `str.lower()` on the ASCII range (the enumerated environment
names are ASCII). -/
def pyLower (s : String) : String :=
  String.mk (s.toList.map Char.toLower)

/-- Environment validation (src/main.py lines 33-36): the input is
lowercased; a value outside `('svil', 'test', 'prod')` makes `main` return
at once. -/
def selectEnv (raw : String) : Option String :=
  let env := pyLower raw
  if env = "svil" ∨ env = "test" ∨ env = "prod" then some env else none

/-- `main` from the environment check onward (src/main.py lines 35-68): an
invalid environment returns immediately; otherwise two fresh scratch files
are opened, `config.items('urls-' + env)` is read (a missing section
raises), and every microservice entry is processed in order. -/
def mainAfterPrompt (cfg : Config) (files : Files) (net : Network)
    (raw : String) : List Event × Except RunError Unit :=
  match selectEnv raw with
  | none => ([], .ok ())
  | some env =>
    match cfg.items ("urls-" ++ env) with
    | none => ([], .error .missingUrlsSection)
    | some entries =>
      let (evs, r) := processMicroservices cfg files net (TmpFile.init, TmpFile.init) entries
      (evs, r.map (fun _ => ()))

/-- The `Found difference` lines among a run's events. -/
def diffEvents (evs : List Event) : List String :=
  evs.filterMap fun e =>
    match e with
    | .diff l => some l
    | _ => none

/-! ## The end-to-end scenario of the specification

Environment `test` has microservice `orders` at base URL `http://svc/` with
endpoint `/list`; the request fixture is `{"id": 1}` and the expected
response fixture is `{"status": "ok"}`. -/

/-- The JSON value `{"status": "ok"}`. -/
def respOk : Json :=
  Json.obj [("status", Json.str "ok")]

/-- The JSON value `{"status": "fail"}`. -/
def respFail : Json :=
  Json.obj [("status", Json.str "fail")]

/-- The JSON value `{"id": 1}`. -/
def reqFixture : Json :=
  Json.obj [("id", Json.num 1)]

/-- Configuration of the end-to-end scenario. -/
def scenarioCfg : Config where
  items := fun sect =>
    if sect = "urls-test" then some [("orders", "http://svc/")] else none
  get := fun sect key =>
    if sect = "orders" ∧ key = "endpoints" then some "/list" else none

/-- Fixture files of the end-to-end scenario. -/
def scenarioFiles : Files := fun p =>
  if p = "requests/list.json" then some (.ok reqFixture)
  else if p = "responses/list.json" then some (.ok respOk)
  else none

/-- A live service answering `{"status": "ok"}` with HTTP 200. -/
def netStatusOk : Network := fun _ _ => .response 200 (some respOk)

/-- A live service answering `{"status": "fail"}` with HTTP 200. -/
def netStatusFail : Network := fun _ _ => .response 200 (some respFail)

/-- A live service answering `{"status": "fail"}` with HTTP 500. -/
def netStatus500 : Network := fun _ _ => .response 500 (some respFail)

/-- A configuration whose `endpoints` lookups all fail. -/
def emptyCfg : Config where
  items := fun _ => none
  get := fun _ _ => none

/-- A network on which every POST raises. -/
def netDown : Network := fun _ _ => .netFail

/-- A live service answering HTTP 404 with a body that is not JSON. -/
def netNonJson : Network := fun _ _ => .response 404 none

/-! ## Basic lemmas about the temporary files -/

/-- A fresh temporary file sits at end-of-file. -/
theorem init_atEnd : TmpFile.init.atEnd :=
  rfl

/-- On a file at end-of-file, `truncate()` followed by `write(t)` appends
`t` and leaves the position at the new end-of-file: nothing of the previous
content is discarded. -/
theorem trunc_write_eq (b : TmpFile) (h : b.atEnd) (t : String) :
    (b.trunc).write t =
      ⟨b.content ++ t.toList, b.content.length + t.toList.length⟩ := by
  have hp : b.pos = b.content.length := h
  simp [TmpFile.trunc, TmpFile.write, hp, List.take_length,
    List.drop_eq_nil_of_le, List.take_take]

/-- A file at end-of-file has no pending lines to iterate over. -/
theorem pendingLines_atEnd (b : TmpFile) (h : b.atEnd) :
    b.pendingLines = [] := by
  have hp : b.pos = b.content.length := h
  simp [TmpFile.pendingLines, hp, List.drop_length, splitLines, splitLinesAux]

/-- What one comparison round really does when both scratch files sit at
end-of-file (which they always do, see `run_no_diffs`): it reports no
difference whatsoever, appends the new texts after whatever the files
already contained, and leaves both files at end-of-file again. -/
theorem compareStep_spec (b1 b2 : TmpFile) (h1 : b1.atEnd) (h2 : b2.atEnd)
    (t1 t2 : String) :
    (compareStep b1 b2 t1 t2).2.2 = [] ∧
    (compareStep b1 b2 t1 t2).1.atEnd ∧
    (compareStep b1 b2 t1 t2).2.1.atEnd ∧
    (compareStep b1 b2 t1 t2).1.content = b1.content ++ t1.toList ∧
    (compareStep b1 b2 t1 t2).2.1.content = b2.content ++ t2.toList := by
  have e1 := trunc_write_eq b1 h1 t1
  have e2 := trunc_write_eq b2 h2 t2
  have p1 : ((b1.trunc).write t1).pendingLines = [] := by
    apply pendingLines_atEnd
    rw [e1]
    simp [TmpFile.atEnd]
  have p2 : ((b2.trunc).write t2).pendingLines = [] := by
    apply pendingLines_atEnd
    rw [e2]
    simp [TmpFile.atEnd]
  simp only [compareStep, p1, p2]
  refine ⟨rfl, ?_, ?_, ?_, ?_⟩
  · simp [TmpFile.afterRead, consumedChars, p1, e1, TmpFile.atEnd]
  · simp [TmpFile.afterRead, consumedChars, p2, e2, TmpFile.atEnd]
  · simp [TmpFile.afterRead, e1]
  · simp [TmpFile.afterRead, e2]

/-- `diffEvents` distributes over event concatenation. -/
theorem diffEvents_append (a b : List Event) :
    diffEvents (a ++ b) = diffEvents a ++ diffEvents b := by
  simp [diffEvents]

/-- Processing one endpoint emits no `Found difference` line and keeps both
scratch files at end-of-file. -/
theorem processEndpoint_inv (files : Files) (net : Network)
    (st : TmpFile × TmpFile) (url e : String) (h1 : st.1.atEnd)
    (h2 : st.2.atEnd) :
    diffEvents (processEndpoint files net st url e).1 = [] ∧
    ∀ st', (processEndpoint files net st url e).2 = .ok st' →
      st'.1.atEnd ∧ st'.2.atEnd := by
  unfold processEndpoint
  cases hreq : files ("requests" ++ e ++ ".json") with
  | none => simp [diffEvents]
  | some reqParse =>
    cases hresp : files ("responses" ++ e ++ ".json") with
    | none => simp [diffEvents]
    | some respParse =>
      cases reqParse with
      | error u => simp [diffEvents]
      | ok reqJson =>
        simp only [call_microservice]
        cases hnet : net (url ++ e) reqJson with
        | netFail => simp [diffEvents]
        | response status body =>
          cases body with
          | none => simp [diffEvents]
          | some respJson =>
            cases respParse with
            | error u => simp [diffEvents]
            | ok expectedJson =>
              have hs := compareStep_spec st.1 st.2 h1 h2
                (dumps respJson) (dumps expectedJson)
              simp only [hs.1, List.map_nil, List.append_nil]
              constructor
              · simp [diffEvents]
              · intro st' hok
                simp only [Except.ok.injEq] at hok
                subst hok
                exact ⟨hs.2.1, hs.2.2.1⟩

/-- Processing an endpoint list emits no `Found difference` line and keeps
both scratch files at end-of-file. -/
theorem processEndpoints_inv (files : Files) (net : Network) (url : String) :
    ∀ (es : List String) (st : TmpFile × TmpFile), st.1.atEnd → st.2.atEnd →
      diffEvents (processEndpoints files net url st es).1 = [] ∧
      ∀ st', (processEndpoints files net url st es).2 = .ok st' →
        st'.1.atEnd ∧ st'.2.atEnd := by
  intro es
  induction es with
  | nil =>
    intro st h1 h2
    constructor
    · simp [processEndpoints, diffEvents]
    · intro st' hok
      simp only [processEndpoints, Except.ok.injEq] at hok
      subst hok
      exact ⟨h1, h2⟩
  | cons e rest ih =>
    intro st h1 h2
    have hpe := processEndpoint_inv files net st url e h1 h2
    rcases hq : processEndpoint files net st url e with ⟨evs, r⟩
    rw [hq] at hpe
    cases r with
    | error err =>
      simp only [processEndpoints, hq]
      constructor
      · exact hpe.1
      · intro st' hok
        simp at hok
    | ok stNext =>
      have hnext := hpe.2 stNext rfl
      have hrest := ih stNext hnext.1 hnext.2
      simp only [processEndpoints, hq]
      rcases hq2 : processEndpoints files net url stNext rest with ⟨evs2, r2⟩
      rw [hq2] at hrest
      constructor
      · simp only [diffEvents_append, hpe.1, hrest.1, List.append_nil]
      · exact hrest.2

/-- Processing one microservice entry emits no `Found difference` line and
keeps both scratch files at end-of-file. -/
theorem processMicroservice_inv (cfg : Config) (files : Files) (net : Network)
    (st : TmpFile × TmpFile) (entry : String × String) (h1 : st.1.atEnd)
    (h2 : st.2.atEnd) :
    diffEvents (processMicroservice cfg files net st entry).1 = [] ∧
    ∀ st', (processMicroservice cfg files net st entry).2 = .ok st' →
      st'.1.atEnd ∧ st'.2.atEnd := by
  unfold processMicroservice
  cases hget : cfg.get entry.1 "endpoints" with
  | none =>
    constructor
    · simp [diffEvents]
    · intro st' hok
      simp only [Except.ok.injEq] at hok
      subst hok
      exact ⟨h1, h2⟩
  | some s =>
    exact processEndpoints_inv files net entry.2
      ((pySplitComma s).map (fun v => pyStrip v)) st h1 h2

/-- Processing the microservice list emits no `Found difference` line and
keeps both scratch files at end-of-file. -/
theorem processMicroservices_inv (cfg : Config) (files : Files)
    (net : Network) :
    ∀ (ms : List (String × String)) (st : TmpFile × TmpFile),
      st.1.atEnd → st.2.atEnd →
      diffEvents (processMicroservices cfg files net st ms).1 = [] := by
  intro ms
  induction ms with
  | nil =>
    intro st h1 h2
    simp [processMicroservices, diffEvents]
  | cons m rest ih =>
    intro st h1 h2
    have hpm := processMicroservice_inv cfg files net st m h1 h2
    rcases hq : processMicroservice cfg files net st m with ⟨evs, r⟩
    rw [hq] at hpm
    cases r with
    | error err =>
      simp only [processMicroservices, hq]
      exact hpm.1
    | ok stNext =>
      have hnext := hpm.2 stNext rfl
      have hrest := ih stNext hnext.1 hnext.2
      simp only [processMicroservices, hq]
      rcases hq2 : processMicroservices cfg files net stNext rest with ⟨evs2, r2⟩
      rw [hq2] at hrest
      simp only [diffEvents_append, hpm.1, hrest, List.append_nil]

/-- No run of the script, whatever the configuration, fixtures, network
answers and environment input, ever prints a `Found difference` line. -/
theorem run_no_diffs (cfg : Config) (files : Files) (net : Network)
    (raw : String) :
    diffEvents (mainAfterPrompt cfg files net raw).1 = [] := by
  unfold mainAfterPrompt
  cases hsel : selectEnv raw with
  | none => simp [diffEvents]
  | some env =>
    cases hit : cfg.items ("urls-" ++ env) with
    | none => simp [hit, diffEvents]
    | some entries =>
      have h := processMicroservices_inv cfg files net entries
        (TmpFile.init, TmpFile.init) rfl rfl
      rcases hq : processMicroservices cfg files net
        (TmpFile.init, TmpFile.init) entries with ⟨evs, r⟩
      rw [hq] at h
      simp only [hit, hq]
      simpa using h

/-! ## Lemmas about the diff loop itself -/

/-- Zipping a line sequence against itself reports nothing. -/
theorem diffLines_self (l : List String) : diffLines l l = [] := by
  induction l with
  | nil => rfl
  | cons x t ih => simp [diffLines, ih]

/-- The diff loop only ever looks at the first `l2.length` lines of the
actual side: lines beyond the shorter sequence are ignored. -/
theorem diffLines_take (l1 l2 : List String) :
    diffLines l1 l2 = diffLines (l1.take l2.length) l2 := by
  induction l1 generalizing l2 with
  | nil => simp
  | cons x t ih =>
    cases l2 with
    | nil => simp [diffLines]
    | cons y s => simp [diffLines, List.take_succ_cons, ih s]

/-- At most one report per compared pair: the number of reports is bounded
by the length of the shorter sequence. -/
theorem diffLines_length (l1 l2 : List String) :
    (diffLines l1 l2).length ≤ min l1.length l2.length := by
  induction l1 generalizing l2 with
  | nil => simp [diffLines]
  | cons x t ih =>
    cases l2 with
    | nil => simp [diffLines]
    | cons y s =>
      have h := ih s
      by_cases hxy : x = y
      · simp only [diffLines, hxy]
        simp only [ne_eq, not_true_eq_false, if_false, List.nil_append,
          List.length_cons]
        omega
      · simp only [diffLines, ne_eq, hxy, not_false_eq_true, if_true,
          List.singleton_append, List.length_cons]
        omega

/-- Every line the diff loop prints is the fixed marker followed by the
actual-side line of some position at which the two sequences differ; the
expected-side line is not part of the report. -/
theorem diffLines_mem (l1 l2 : List String) (r : String)
    (hr : r ∈ diffLines l1 l2) :
    ∃ i a b, l1.get? i = some a ∧ l2.get? i = some b ∧ a ≠ b ∧
      r = "Found difference: " ++ a := by
  induction l1 generalizing l2 r with
  | nil => simp [diffLines] at hr
  | cons x t ih =>
    cases l2 with
    | nil => simp [diffLines] at hr
    | cons y s =>
      by_cases hxy : x = y
      · simp only [diffLines, ne_eq, hxy, not_true_eq_false, if_false,
          List.nil_append] at hr
        obtain ⟨i, a, b, h1, h2, h3, h4⟩ := ih s r hr
        exact ⟨i + 1, a, b, by simpa using h1, by simpa using h2, h3, h4⟩
      · simp only [diffLines, ne_eq, hxy, not_false_eq_true, if_true,
          List.singleton_append, List.mem_cons] at hr
        cases hr with
        | inl h =>
          exact ⟨0, x, y, rfl, rfl, hxy, h⟩
        | inr h =>
          obtain ⟨i, a, b, h1, h2, h3, h4⟩ := ih s r h
          exact ⟨i + 1, a, b, by simpa using h1, by simpa using h2, h3, h4⟩

/-! ## Claim theorems -/

/-- C1 (code bug): the pretty-printed serializations of
`{"status": "fail"}` and `{"status": "ok"}` differ at line index 1, yet the
comparison as coded — write both texts into the scratch files and zip the
file iterators without seeking back — emits no difference report at all. -/
theorem claim_C1_differing_line_unreported :
    (splitLines (dumps respFail)).get? 1 = some "    \"status\": \"fail\"\n" ∧
    (splitLines (dumps respOk)).get? 1 = some "    \"status\": \"ok\"\n" ∧
    (splitLines (dumps respFail)).get? 1 ≠ (splitLines (dumps respOk)).get? 1 ∧
    (compareStep TmpFile.init TmpFile.init (dumps respFail) (dumps respOk)).2.2 = [] :=
  ⟨rfl, rfl, by decide, rfl⟩

/-- C2 (code bug): in the end-to-end scenario, the run with a live answer
of `{"status": "ok"}` reports zero differences as claimed, but the run with
a live answer of `{"status": "fail"}` also reports zero differences — the
endpoint is genuinely processed (the POST to `http://svc//list` is issued)
and the two serialized texts genuinely differ, but no difference line is
printed, where the claim demands exactly one. -/
theorem claim_C2_end_to_end_eval :
    diffEvents (mainAfterPrompt scenarioCfg scenarioFiles netStatusOk "test").1 = [] ∧
    (mainAfterPrompt scenarioCfg scenarioFiles netStatusFail "test").1 =
      [Event.log "Sending request to http://svc//list",
       Event.netCall "http://svc//list" reqFixture] ∧
    diffEvents (mainAfterPrompt scenarioCfg scenarioFiles netStatusFail "test").1 = [] ∧
    splitLines (dumps respFail) ≠ splitLines (dumps respOk) :=
  ⟨rfl, rfl, rfl, by decide⟩

/-- C3 (confirmed): writing the serialized texts leaves both scratch files
at end-of-file with no pending lines, so the zip loop iterates over zero
line pairs and the comparison emits no report, for every input; and no run
of the whole script ever prints a `Found difference` line. -/
theorem claim_C3_zero_line_pairs :
    (∀ (b1 b2 : TmpFile), b1.atEnd → b2.atEnd → ∀ t1 t2 : String,
      ((b1.trunc).write t1).atEnd ∧ ((b2.trunc).write t2).atEnd ∧
      ((b1.trunc).write t1).pendingLines = [] ∧
      ((b2.trunc).write t2).pendingLines = [] ∧
      (compareStep b1 b2 t1 t2).2.2 = []) ∧
    (∀ (cfg : Config) (files : Files) (net : Network) (raw : String),
      diffEvents (mainAfterPrompt cfg files net raw).1 = []) := by
  constructor
  · intro b1 b2 h1 h2 t1 t2
    have e1 := trunc_write_eq b1 h1 t1
    have e2 := trunc_write_eq b2 h2 t2
    have a1 : ((b1.trunc).write t1).atEnd := by
      rw [e1]; simp [TmpFile.atEnd]
    have a2 : ((b2.trunc).write t2).atEnd := by
      rw [e2]; simp [TmpFile.atEnd]
    exact ⟨a1, a2, pendingLines_atEnd _ a1, pendingLines_atEnd _ a2,
      (compareStep_spec b1 b2 h1 h2 t1 t2).1⟩
  · exact run_no_diffs

/-- Witness for C3 at concrete inputs. -/
theorem claim_C3_zero_line_pairs_witness :
    (((TmpFile.init.trunc).write "a").atEnd ∧
     ((TmpFile.init.trunc).write "b").atEnd ∧
     ((TmpFile.init.trunc).write "a").pendingLines = [] ∧
     ((TmpFile.init.trunc).write "b").pendingLines = [] ∧
     (compareStep TmpFile.init TmpFile.init "a" "b").2.2 = []) ∧
    diffEvents (mainAfterPrompt scenarioCfg scenarioFiles netStatusFail "test").1 = [] :=
  ⟨claim_C3_zero_line_pairs.1 TmpFile.init TmpFile.init rfl rfl "a" "b",
   claim_C3_zero_line_pairs.2 scenarioCfg scenarioFiles netStatusFail "test"⟩

/-- C4 (confirmed): comparing a JSON value against itself produces an empty
report — both in the comparison as coded and in the underlying line-diff
loop applied to the serialized lines. -/
theorem claim_C4_identity_comparison_silent (A : Json) (b1 b2 : TmpFile)
    (h1 : b1.atEnd) (h2 : b2.atEnd) :
    (compareStep b1 b2 (dumps A) (dumps A)).2.2 = [] ∧
    diffLines (splitLines (dumps A)) (splitLines (dumps A)) = [] :=
  ⟨(compareStep_spec b1 b2 h1 h2 (dumps A) (dumps A)).1,
   diffLines_self _⟩

/-- Witness for C4 at `{"status": "ok"}` and fresh scratch files. -/
theorem claim_C4_identity_comparison_silent_witness :
    (compareStep TmpFile.init TmpFile.init (dumps respOk) (dumps respOk)).2.2 = [] ∧
    diffLines (splitLines (dumps respOk)) (splitLines (dumps respOk)) = [] :=
  claim_C4_identity_comparison_silent respOk TmpFile.init TmpFile.init rfl rfl

/-- C5 (confirmed): when the actual side serializes to more lines than the
expected side, the zip diff only ever pairs lines up to the length of the
shorter text — its output is unchanged if the actual side is cut to that
length — and the number of reports is bounded by the shorter length, so the
extra trailing lines produce no report entries. -/
theorem claim_C5_trailing_lines_ignored (A B : Json)
    (h : (splitLines (dumps B)).length < (splitLines (dumps A)).length) :
    diffLines (splitLines (dumps A)) (splitLines (dumps B)) =
      diffLines ((splitLines (dumps A)).take (splitLines (dumps B)).length)
        (splitLines (dumps B)) ∧
    (diffLines (splitLines (dumps A)) (splitLines (dumps B))).length ≤
      (splitLines (dumps B)).length := by
  refine ⟨diffLines_take _ _, ?_⟩
  have hl := diffLines_length (splitLines (dumps A)) (splitLines (dumps B))
  omega

/-- Witness for C5: a two-field object (four lines) against a one-field
object (three lines). -/
theorem claim_C5_trailing_lines_ignored_witness :
    (splitLines (dumps respOk)).length <
      (splitLines (dumps (Json.obj [("a", Json.num 1), ("b", Json.num 2)]))).length ∧
    (diffLines (splitLines (dumps (Json.obj [("a", Json.num 1), ("b", Json.num 2)])))
        (splitLines (dumps respOk)) =
      diffLines ((splitLines (dumps (Json.obj [("a", Json.num 1), ("b", Json.num 2)]))).take
          (splitLines (dumps respOk)).length)
        (splitLines (dumps respOk)) ∧
     (diffLines (splitLines (dumps (Json.obj [("a", Json.num 1), ("b", Json.num 2)])))
        (splitLines (dumps respOk))).length ≤ (splitLines (dumps respOk)).length) :=
  ⟨by decide,
   claim_C5_trailing_lines_ignored (Json.obj [("a", Json.num 1), ("b", Json.num 2)])
     respOk (by decide)⟩

/-- C6 (code bug): `truncate()` is issued at the current position, which
after the previous endpoint is the end of the file, so it discards nothing:
after the second comparison's write the scratch file still holds the first
endpoint's serialized text in front of the second one. -/
theorem claim_C6_previous_data_remains :
    (compareStep
        (compareStep TmpFile.init TmpFile.init (dumps respOk) (dumps respOk)).1
        (compareStep TmpFile.init TmpFile.init (dumps respOk) (dumps respOk)).2.1
        (dumps respFail) (dumps respFail)).1.content
      = (dumps respOk).toList ++ (dumps respFail).toList ∧
    (compareStep
        (compareStep TmpFile.init TmpFile.init (dumps respOk) (dumps respOk)).1
        (compareStep TmpFile.init TmpFile.init (dumps respOk) (dumps respOk)).2.1
        (dumps respFail) (dumps respFail)).1.content
      ≠ (dumps respFail).toList :=
  ⟨rfl, by decide⟩

/-- C7 (confirmed): an input whose lowercasing is outside
`('svil', 'test', 'prod')` makes the run return immediately with no events
(no log line, no POST, no difference output); an input whose lowercasing is
in the set passes validation whatever its letter case. -/
theorem claim_C7_env_validation (raw : String) (cfg : Config) (files : Files)
    (net : Network) :
    (selectEnv raw = none → mainAfterPrompt cfg files net raw = ([], .ok ())) ∧
    (pyLower raw = "svil" ∨ pyLower raw = "test" ∨ pyLower raw = "prod" →
      selectEnv raw = some (pyLower raw)) := by
  constructor
  · intro h
    unfold mainAfterPrompt
    rw [h]
  · intro h
    unfold selectEnv
    rw [if_pos h]

/-- Witness for C7: the rejected input `xyz` and the accepted mixed-case
input `TeST`. -/
theorem claim_C7_env_validation_witness :
    mainAfterPrompt scenarioCfg scenarioFiles netDown "xyz" = ([], .ok ()) ∧
    selectEnv "TeST" = some (pyLower "TeST") :=
  ⟨(claim_C7_env_validation "xyz" scenarioCfg scenarioFiles netDown).1 rfl,
   (claim_C7_env_validation "TeST" scenarioCfg scenarioFiles netDown).2
     (Or.inr (Or.inl rfl))⟩

/-- C8 (confirmed): a microservice entry whose `endpoints` lookup fails
contributes no events and no comparison at all, and the run over the
remaining entries is exactly the run without that entry. -/
theorem claim_C8_microservice_skipped (cfg : Config) (files : Files)
    (net : Network) (st : TmpFile × TmpFile) (name url : String)
    (rest : List (String × String))
    (h : cfg.get name "endpoints" = none) :
    processMicroservice cfg files net st (name, url) = ([], .ok st) ∧
    processMicroservices cfg files net st ((name, url) :: rest) =
      processMicroservices cfg files net st rest := by
  have h1 : processMicroservice cfg files net st (name, url) = ([], .ok st) := by
    unfold processMicroservice
    simp only [h]
  refine ⟨h1, ?_⟩
  simp only [processMicroservices, h1]
  rcases hq : processMicroservices cfg files net st rest with ⟨evs, r⟩
  simp

/-- Witness for C8: a configuration with no `endpoints` key anywhere. -/
theorem claim_C8_microservice_skipped_witness :
    processMicroservice emptyCfg scenarioFiles netDown
      (TmpFile.init, TmpFile.init) ("orders", "http://svc/") =
      ([], .ok (TmpFile.init, TmpFile.init)) ∧
    processMicroservices emptyCfg scenarioFiles netDown
      (TmpFile.init, TmpFile.init) [("orders", "http://svc/")] =
      processMicroservices emptyCfg scenarioFiles netDown
        (TmpFile.init, TmpFile.init) [] :=
  claim_C8_microservice_skipped emptyCfg scenarioFiles netDown
    (TmpFile.init, TmpFile.init) "orders" "http://svc/" [] rfl

/-- C9 (counterexample): a non-2xx response whose body is valid JSON does
not propagate any error — `call_microservice` returns the parsed body of an
HTTP 500 answer, and the whole end-to-end run completes normally — refuting
the claim that a non-2xx status aborts the run. -/
theorem claim_C9_non2xx_not_an_error :
    (call_microservice netStatus500 "http://svc//list" reqFixture).2 =
      .ok respFail ∧
    (mainAfterPrompt scenarioCfg scenarioFiles netStatus500 "test").2 = .ok () :=
  ⟨rfl, rfl⟩

/-- C9 (amended): a network failure or a non-JSON response body propagates
as an unrecoverable error, and an error from one endpoint aborts the
processing of all remaining endpoints — but a non-2xx status with a JSON
body is returned like any success, the status code being ignored. -/
theorem claim_C9_transport_errors (net : Network) (url : String)
    (body : Json) :
    (net url body = .netFail →
      (call_microservice net url body).2 = .error .networkFailure) ∧
    (∀ status, net url body = .response status none →
      (call_microservice net url body).2 = .error .nonJsonResponse) ∧
    (∀ status j, net url body = .response status (some j) →
      (call_microservice net url body).2 = .ok j) ∧
    (∀ (files : Files) (st : TmpFile × TmpFile) (e : String)
        (rest : List String) (err : RunError),
      (processEndpoint files net st url e).2 = .error err →
      processEndpoints files net url st (e :: rest) =
        ((processEndpoint files net st url e).1, .error err)) := by
  refine ⟨?_, ?_, ?_, ?_⟩
  · intro h
    simp [call_microservice, h]
  · intro status h
    simp [call_microservice, h]
  · intro status j h
    simp [call_microservice, h]
  · intro files st e rest err h
    rcases hq : processEndpoint files net st url e with ⟨evs, r⟩
    rw [hq] at h
    simp only at h
    subst h
    simp only [processEndpoints, hq]

/-- Witness for C9 (amended) at concrete transports and the scenario
fixtures. -/
theorem claim_C9_transport_errors_witness :
    (call_microservice netDown "http://svc//list" reqFixture).2 =
      .error .networkFailure ∧
    (call_microservice netNonJson "http://svc//list" reqFixture).2 =
      .error .nonJsonResponse ∧
    (call_microservice netStatusOk "http://svc//list" reqFixture).2 =
      .ok respOk ∧
    processEndpoints scenarioFiles netDown "http://svc/"
      (TmpFile.init, TmpFile.init) ["/list", "/other"] =
      ((processEndpoint scenarioFiles netDown (TmpFile.init, TmpFile.init)
          "http://svc/" "/list").1, .error .networkFailure) :=
  ⟨(claim_C9_transport_errors netDown "http://svc//list" reqFixture).1 rfl,
   (claim_C9_transport_errors netNonJson "http://svc//list" reqFixture).2.1 404 rfl,
   (claim_C9_transport_errors netStatusOk "http://svc//list" reqFixture).2.2.1
     200 respOk rfl,
   (claim_C9_transport_errors netDown "http://svc/" reqFixture).2.2.2
     scenarioFiles (TmpFile.init, TmpFile.init) "/list" ["/other"]
     .networkFailure rfl⟩

/-- C10 (confirmed): every line the diff loop emits is the fixed marker
`Found difference: ` followed by the actual-side line of a differing
position, and nothing else — the expected-side line is not part of any
report. -/
theorem claim_C10_report_format (l1 l2 : List String) (r : String)
    (hr : r ∈ diffLines l1 l2) :
    ∃ i a b, l1.get? i = some a ∧ l2.get? i = some b ∧ a ≠ b ∧
      r = "Found difference: " ++ a :=
  diffLines_mem l1 l2 r hr

/-- Witness for C10 on a one-line difference. -/
theorem claim_C10_report_format_witness :
    ∃ i a b, (["x"] : List String).get? i = some a ∧
      (["y"] : List String).get? i = some b ∧ a ≠ b ∧
      "Found difference: x" = "Found difference: " ++ a :=
  claim_C10_report_format ["x"] ["y"] "Found difference: x" (by decide)

end ReleaseSanityChecker
